import Mathlib

/-!
# A shallow embedding of the `kamikaze_di` dependency-injection container

This file embeds the core of the `kamikaze_di` Rust crate (the fully wired
variant: `container/mod.rs`, `container/builder.rs`, `container/cycle.rs`,
`container/injector.rs`) and proves the frozen specification claims about it.

Modelling decisions:
* `TypeId` becomes `TypeKey := Nat`: a stable identity per requested type.
* The `Box<dyn Any>` payloads become a small closed value universe `Val`;
  downcasts (which the source `unwrap`s) are constructor matches.
* User closures (`FnMut(&Container) -> T` factories, `FnOnce` builders and
  `Inject::resolve` constructors) are deep-embedded as `Prog` trees: a
  closure is a computation that may call `Container::resolve` or
  `Injector::inject` and then continue with the result.  A factory's
  captured mutable state is made explicit: the registry stores the state
  `Val` next to the code, and `Prog.retF` returns the mutated state
  (mirroring `FnMut` in-place mutation).
* Rust panics (the `panic!` in `CycleStopper::track`, the unreachable
  downcast panics, and `unwrap()` inside user closures) are a separate
  outcome constructor `EOut.panicked`, distinct from recoverable
  `Result::Err` values (`EOut.err`); panics propagate without ever being
  handed to a user continuation, and `Drop` guards still run (`tracked`
  is restored) while they unwind.
* Recursion through user closures is bounded by explicit fuel; running out
  of fuel (`EOut.outOfFuel`) is a model artifact standing for a
  computation that exceeds any given recursion budget.
* The `HashMap<TypeId, Resolver>` registry is an association list with
  first-match lookup; keys are unique because insertion is guarded by a
  presence check (exactly the source's `insert`).
-/

namespace KamikazeDi

/-- Stable identity of a requested type (`std::any::TypeId`). -/
abbrev TypeKey := Nat

/-- Closed universe of dependency values (the `Box<dyn Any>` payloads).
`rc v` marks a value handed out behind an `Rc` (the `InjectAsRc` path). -/
inductive Val where
  | int (n : Int)
  | pair (a b : Val)
  | rc (v : Val)
deriving DecidableEq, Repr

/-- The spec's error taxonomy for the crate's single string-message `Error`
type: each constructor stands for one of the `format!` messages the source
produces. -/
inductive DiError where
  /-- `"Container already has {:?}"` (from `insert`). -/
  | duplicateRegistration (key : TypeKey)
  /-- `"Type not registered: {:?}"` (from `resolve_as_any`). -/
  | typeNotRegistered (key : TypeKey)
  /-- An error produced inside a user-supplied constructor, e.g. the
  field-qualified `"could not resolve Struct::field: ..."` messages of the
  derived `Inject` impls. -/
  | constructionFailure (msg : String)
deriving DecidableEq, Repr

/-- Rust panics the embedded code can raise. -/
inductive DiPanic where
  /-- `CycleStopper::track`'s `panic!("Circular dependency detected ...")`,
  carrying the reentrant key and the tracked set at detection time. -/
  | circular (key : TypeKey) (tracked : List TypeKey)
  /-- `get_shared`'s `panic!("Type ... not registered as shared dependency")`
  or the `unwrap()` of a missing entry (defensive, unreachable). -/
  | notShared (key : TypeKey)
  /-- A panic inside a user-supplied closure (typically `unwrap()` on an
  `Err` result of a nested `resolve`). -/
  | userAbort (msg : String)
deriving DecidableEq, Repr

/-- Deep embedding of a user-supplied closure body: a factory
(`FnMut(&Container) -> T`), a builder (`FnOnce(&Container) -> T`) or an
`Inject`/`InjectAsRc` constructor (`fn resolve(&Container) -> Result<Self>`).
The continuation of a nested call receives the nested call's `Result`, as
the Rust closure does; panics never reach the continuation. -/
inductive Prog where
  /-- Return a value (closure returns `item`; captured state untouched). -/
  | ret (v : Val)
  /-- Return a value and mutate the captured `FnMut` state to `s`. -/
  | retF (v : Val) (s : Val)
  /-- Return `Err(e)` (only `Inject::resolve` constructors can: factory and
  builder closures return a bare `T`). -/
  | errP (e : DiError)
  /-- Panic inside the closure (e.g. `unwrap()` on an `Err`). -/
  | abort (msg : String)
  /-- Call `container.resolve::<k>()` and continue with its `Result`. -/
  | resolveD (k : TypeKey) (cont : Except DiError Val → Prog)
  /-- Call `container.inject::<k>()` and continue with its `Result`. -/
  | injectD (k : TypeKey) (cont : Except DiError Val → Prog)

/-- `enum Resolver` from `container/mod.rs`. A `factory`'s captured mutable
state is stored explicitly next to its code. -/
inductive Resolver where
  | Factory (state : Val) (code : Val → Prog)
  | Builder (code : Prog)
  | Shared (v : Val)

/-- First-match association-list lookup (`HashMap::get`). -/
def alookup {α : Type} : List (TypeKey × α) → TypeKey → Option α
  | [], _ => none
  | (k', a) :: t, k => if k' = k then some a else alookup t k

/-- Remove the entry for `k` (`HashMap::remove`). -/
def eraseKey {α : Type} : List (TypeKey × α) → TypeKey → List (TypeKey × α)
  | [], _ => []
  | (k', a) :: t, k => if k' = k then t else (k', a) :: eraseKey t k

/-- The registry: `HashMap<TypeId, Resolver>`. -/
abbrev Registry := List (TypeKey × Resolver)

/-- `Container::insert` / `ContainerBuilder::insert`: reject a present key
with `DuplicateRegistration`, otherwise insert. -/
def insertReg (regs : Registry) (k : TypeKey) (r : Resolver) :
    Except DiError Registry :=
  if (alookup regs k).isSome then .error (.duplicateRegistration k)
  else .ok ((k, r) :: regs)

/-- Replace the captured state of the factory registered at `k` (the
in-place mutation a Rust `FnMut` call performs on its captured state). -/
def updFacState : Registry → TypeKey → Val → Registry
  | [], _, _ => []
  | (k', r) :: t, k, s =>
    if k' = k then
      match r with
      | .Factory _ code => (k, .Factory s code) :: t
      | other => (k', other) :: t
    else (k', r) :: updFacState t k s

/-- `Container::get_shared`: look the entry up, `unwrap` it and downcast;
a missing or non-`Shared` entry is a (defensive) panic in the source. -/
def getShared (regs : Registry) (k : TypeKey) : Except DiPanic Val :=
  match alookup regs k with
  | some (.Shared v) => .ok v
  | some _ => .error (.notShared k)
  | none => .error (.notShared k)

/-- The container: the registry (`RefCell<HashMap<..>>`) plus the
`CycleStopper`'s set of in-flight keys (`tracked`), kept in resolution
order with the most recent first. -/
structure Container where
  resolvers : Registry
  tracked : List TypeKey
deriving Inhabited

/-- One `Inject` (`asRc = false`) or `InjectAsRc` (`asRc = true`) trait
implementation: the type's self-describing constructor. -/
structure InjectImpl where
  asRc : Bool
  ctor : Prog

/-- The (static) set of `Inject`/`InjectAsRc` impls, keyed by the type they
construct — for `InjectAsRc`, by the key of `Rc<T>`. Specialization picks
the auto-resolving `Injector` impl exactly for the keys listed here. -/
abbrev World := List (TypeKey × InjectImpl)

/-- Observable events of one resolution, used to state "invoked exactly
once" properties and the cycle-tracker invariant. `trackPush` records the
tracked set right after `CycleStopper::track` inserts a key. -/
inductive Ev where
  | trackPush (tracked : List TypeKey)
  | factoryInvoked (k : TypeKey)
  | builderInvoked (k : TypeKey)
  | ctorInvoked (k : TypeKey)
deriving DecidableEq, Repr

/-- A request the engine can serve: a `Container::resolve` call, an
`Injector::inject` call, or running a user closure body. -/
inductive Req where
  | resolveR (k : TypeKey)
  | injectR (k : TypeKey)
  | runP (p : Prog)

/-- Outcome of a request. `ok`'s second component is the factory state a
`Prog.retF` hands back (meaningful only when running factory code). -/
inductive EOut where
  | ok (v : Val) (facState : Option Val)
  | err (e : DiError)
  | panicked (p : DiPanic)
  | outOfFuel
deriving DecidableEq, Repr

/-- Result of one engine call: outcome, post-state, event log. -/
structure EngRes where
  out : EOut
  st : Container
  log : List Ev

/-- The resolution engine: `Container::resolve_as_any` (dispatch +
`CycleStopper` tracking), `Injector::inject` (both the default impl and
the specialized auto-resolving impls), and the runner for user closures.
Fuel bounds the recursion depth; every recursive call spends one unit.

`resolveR k` mirrors `resolve_as_any` line by line: `track` panics on a
reentrant key and otherwise inserts it; the dispatch consults the entry
kind; the guard's `Drop` removes `k` from `tracked` on every exit path,
including while a panic unwinds.  `injectR k` mirrors `injector.rs`: with
no `Inject` impl for `k` the default `inject` is just `self.get()`; with
one, a missing entry runs the user constructor *before any tracking*,
stores the result (behind `Rc` for `InjectAsRc`) and then `self.get()`s. -/
def engine (w : World) : Nat → Req → Container → EngRes
  | 0, _, st => ⟨.outOfFuel, st, []⟩
  | f + 1, .resolveR k, st =>
    if st.tracked.contains k then
      ⟨.panicked (.circular k st.tracked), st, []⟩
    else
      let st1 : Container := ⟨st.resolvers, k :: st.tracked⟩
      match alookup st1.resolvers k with
      | some (.Factory fs code) =>
        let r := engine w f (.runP (code fs)) st1
        match r.out with
        | .ok v so =>
          ⟨.ok v none, ⟨updFacState r.st.resolvers k (so.getD fs), r.st.tracked.erase k⟩,
            .trackPush st1.tracked :: .factoryInvoked k :: r.log⟩
        | o => ⟨o, ⟨r.st.resolvers, r.st.tracked.erase k⟩,
            .trackPush st1.tracked :: .factoryInvoked k :: r.log⟩
      | some (.Builder code) =>
        let r := engine w f (.runP code) ⟨eraseKey st1.resolvers k, st1.tracked⟩
        match r.out with
        | .ok v _ =>
          match insertReg r.st.resolvers k (.Shared v) with
          | .ok regs =>
            match getShared regs k with
            | .ok item => ⟨.ok item none, ⟨regs, r.st.tracked.erase k⟩,
                .trackPush st1.tracked :: .builderInvoked k :: r.log⟩
            | .error p => ⟨.panicked p, ⟨regs, r.st.tracked.erase k⟩,
                .trackPush st1.tracked :: .builderInvoked k :: r.log⟩
          | .error e => ⟨.err e, ⟨r.st.resolvers, r.st.tracked.erase k⟩,
              .trackPush st1.tracked :: .builderInvoked k :: r.log⟩
        | o => ⟨o, ⟨r.st.resolvers, r.st.tracked.erase k⟩,
            .trackPush st1.tracked :: .builderInvoked k :: r.log⟩
      | some (.Shared _) =>
        match getShared st1.resolvers k with
        | .ok item => ⟨.ok item none, ⟨st1.resolvers, st1.tracked.erase k⟩,
            [.trackPush st1.tracked]⟩
        | .error p => ⟨.panicked p, ⟨st1.resolvers, st1.tracked.erase k⟩,
            [.trackPush st1.tracked]⟩
      | none => ⟨.err (.typeNotRegistered k), ⟨st1.resolvers, st1.tracked.erase k⟩,
          [.trackPush st1.tracked]⟩
  | f + 1, .injectR k, st =>
    match alookup w k with
    | none => engine w f (.resolveR k) st
    | some impl =>
      if (alookup st.resolvers k).isSome then engine w f (.resolveR k) st
      else
        let r := engine w f (.runP impl.ctor) st
        match r.out with
        | .ok item _ =>
          match insertReg r.st.resolvers k
              (.Shared (if impl.asRc then Val.rc item else item)) with
          | .ok regs =>
            let r2 := engine w f (.resolveR k) ⟨regs, r.st.tracked⟩
            ⟨r2.out, r2.st, .ctorInvoked k :: r.log ++ r2.log⟩
          | .error e => ⟨.err e, r.st, .ctorInvoked k :: r.log⟩
        | o => ⟨o, r.st, .ctorInvoked k :: r.log⟩
  | f + 1, .runP p, st =>
    match p with
    | .ret v => ⟨.ok v none, st, []⟩
    | .retF v s => ⟨.ok v (some s), st, []⟩
    | .errP e => ⟨.err e, st, []⟩
    | .abort m => ⟨.panicked (.userAbort m), st, []⟩
    | .resolveD k cont =>
      let r := engine w f (.resolveR k) st
      match r.out with
      | .ok v _ =>
        let r2 := engine w f (.runP (cont (.ok v))) r.st
        ⟨r2.out, r2.st, r.log ++ r2.log⟩
      | .err e =>
        let r2 := engine w f (.runP (cont (.error e))) r.st
        ⟨r2.out, r2.st, r.log ++ r2.log⟩
      | o => ⟨o, r.st, r.log⟩
    | .injectD k cont =>
      let r := engine w f (.injectR k) st
      match r.out with
      | .ok v _ =>
        let r2 := engine w f (.runP (cont (.ok v))) r.st
        ⟨r2.out, r2.st, r.log ++ r2.log⟩
      | .err e =>
        let r2 := engine w f (.runP (cont (.error e))) r.st
        ⟨r2.out, r2.st, r.log ++ r2.log⟩
      | o => ⟨o, r.st, r.log⟩

/-- `Resolver::resolve::<T>` on a container (the public entry point,
`resolver.rs`: `resolve` → `get` → `resolve_as_any`). -/
def Container.resolve (w : World) (fuel : Nat) (st : Container)
    (k : TypeKey) : EngRes :=
  engine w fuel (.resolveR k) st

/-- `Injector::inject::<T>` on a container (`injector.rs`). -/
def Container.inject (w : World) (fuel : Nat) (st : Container)
    (k : TypeKey) : EngRes :=
  engine w fuel (.injectR k) st

/-- `struct ContainerBuilder` (`builder.rs`). -/
structure ContainerBuilder where
  resolvers : Registry
deriving Inhabited

namespace ContainerBuilder

/-- `ContainerBuilder::new`. -/
def new : ContainerBuilder := ⟨[]⟩

/-- `ContainerBuilder::has`. -/
def has (b : ContainerBuilder) (k : TypeKey) : Bool :=
  (alookup b.resolvers k).isSome

/-- `ContainerBuilder::insert` (`builder.rs` lines 273–285). -/
def insert (b : ContainerBuilder) (k : TypeKey) (r : Resolver) :
    Except DiError ContainerBuilder :=
  if b.has k then .error (.duplicateRegistration k)
  else .ok ⟨(k, r) :: b.resolvers⟩

/-- `ContainerBuilder::register`: store as `Shared`. -/
def register (b : ContainerBuilder) (k : TypeKey) (v : Val) :
    Except DiError ContainerBuilder :=
  b.insert k (.Shared v)

/-- `ContainerBuilder::register_factory`: store as `Factory` with the
closure's initial captured state. -/
def registerFactory (b : ContainerBuilder) (k : TypeKey) (state : Val)
    (code : Val → Prog) : Except DiError ContainerBuilder :=
  b.insert k (.Factory state code)

/-- `ContainerBuilder::register_builder`: store as `Builder`. -/
def registerBuilder (b : ContainerBuilder) (k : TypeKey) (code : Prog) :
    Except DiError ContainerBuilder :=
  b.insert k (.Builder code)

/-- `ContainerBuilder::build`: freeze into a container with an empty
`CycleStopper`. -/
def build (b : ContainerBuilder) : Container :=
  ⟨b.resolvers, []⟩

end ContainerBuilder

/-- `n` successive top-level `resolve::<k>()` calls, each with the same
fuel, threading the container state; collects the outcomes and the
concatenated event log. -/
def resolveN (w : World) : Nat → Nat → Container → TypeKey →
    List EOut × Container × List Ev
  | 0, _, st, _ => ([], st, [])
  | n + 1, fuel, st, k =>
    let r := engine w fuel (.resolveR k) st
    let rest := resolveN w n fuel r.st k
    (r.out :: rest.1, rest.2.1, r.log ++ rest.2.2)

/-- `n` successive top-level `inject::<k>()` calls. -/
def injectN (w : World) : Nat → Nat → Container → TypeKey →
    List EOut × Container × List Ev
  | 0, _, st, _ => ([], st, [])
  | n + 1, fuel, st, k =>
    let r := engine w fuel (.injectR k) st
    let rest := injectN w n fuel r.st k
    (r.out :: rest.1, rest.2.1, r.log ++ rest.2.2)

/-- Number of `ctorInvoked k` events in a log (how often the `Inject`
constructor for `k` ran). -/
def countCtor (k : TypeKey) (l : List Ev) : Nat :=
  l.countP fun ev => ev = Ev.ctorInvoked k

/-- Number of `builderInvoked k` events in a log. -/
def countBuilder (k : TypeKey) (l : List Ev) : Nat :=
  l.countP fun ev => ev = Ev.builderInvoked k

/-- Number of `factoryInvoked k` events in a log. -/
def countFactory (k : TypeKey) (l : List Ev) : Nat :=
  l.countP fun ev => ev = Ev.factoryInvoked k

/-- Whether an outcome is a recoverable `Err` (a `Result::Err` the caller
can catch), as opposed to a panic. -/
def EOut.isRecoverableErr : EOut → Bool
  | .err _ => true
  | _ => false

end KamikazeDi

namespace KamikazeDi

/-- Check one event for the cycle-tracker invariant. -/
def evOk : Ev → Bool
  | .trackPush tr => decide tr.Nodup
  | _ => true

/-- Every `trackPush` snapshot in the log is duplicate-free. -/
def pushesOk (l : List Ev) : Bool := l.all evOk

theorem pushesOk_append {a b : List Ev} :
    pushesOk (a ++ b) = (pushesOk a && pushesOk b) := by
  simp [pushesOk]

theorem pushesOk_cons {e : Ev} {l : List Ev} :
    pushesOk (e :: l) = (evOk e && pushesOk l) := by
  simp [pushesOk]

theorem pushesOk_nil : pushesOk [] = true := rfl

theorem engine_tracked (w : World) (f : Nat) :
    ∀ (req : Req) (st : Container),
      (engine w f req st).st.tracked = st.tracked := by
  induction f with
  | zero => intro req st; rfl
  | succ f ih =>
    intro req st
    cases req with
    | resolveR k =>
      simp only [engine]
      split
      · rfl
      · split <;> (try split) <;> (try split) <;> (try split) <;>
          simp [ih, List.erase_cons_head]
    | injectR k =>
      simp only [engine]
      split
      · exact ih _ _
      · split
        · exact ih _ _
        · split <;> (try split) <;> simp [ih]
    | runP p =>
      cases p <;> simp only [engine] <;>
        (try split) <;> simp [ih]

theorem engine_pushesOk (w : World) (f : Nat) :
    ∀ (req : Req) (st : Container), st.tracked.Nodup →
      pushesOk (engine w f req st).log = true := by
  induction f with
  | zero => intro req st _; rfl
  | succ f ih =>
    intro req st hnd
    cases req with
    | resolveR k =>
      simp only [engine]
      split
      case isTrue => rfl
      case isFalse hc =>
        have hnd1 : (k :: st.tracked).Nodup :=
          List.nodup_cons.mpr ⟨by simpa using hc, hnd⟩
        have hA : ∀ p, pushesOk (engine w f (.runP p)
            ⟨st.resolvers, k :: st.tracked⟩).log = true :=
          fun p => ih _ _ hnd1
        have hB : ∀ p, pushesOk (engine w f (.runP p)
            ⟨eraseKey st.resolvers k, k :: st.tracked⟩).log = true :=
          fun p => ih _ _ hnd1
        split <;> (try split) <;> (try split) <;> (try split) <;>
          simp_all [pushesOk_cons, pushesOk_nil, evOk]
    | injectR k =>
      simp only [engine]
      split
      · exact ih _ _ hnd
      next impl heqw =>
        split
        · exact ih _ _ hnd
        next hmiss =>
          have hC := ih (.runP impl.ctor) st hnd
          split
          case h_1 v so hout =>
            split
            case h_1 regs hins =>
              have h2 : pushesOk (engine w f (.resolveR k)
                  ⟨regs, (engine w f (.runP impl.ctor) st).st.tracked⟩).log = true := by
                apply ih
                rw [engine_tracked]; exact hnd
              simp_all [pushesOk_cons, pushesOk_append, evOk]
            case h_2 e hins =>
              simp_all [pushesOk_cons, evOk]
          case h_2 o ho =>
            simp_all [pushesOk_cons, evOk]
    | runP p =>
      have hC : ∀ q st2, st2.tracked = st.tracked →
          pushesOk (engine w f q st2).log = true := by
        intro q st2 h2; apply ih; rw [h2]; exact hnd
      cases p <;> simp only [engine] <;> (try rfl) <;>
        split <;>
          simp_all [pushesOk_append, hC _ _ (engine_tracked w f _ st),
            hC _ st rfl]

end KamikazeDi

namespace KamikazeDi

theorem alookup_cons_self {α : Type} {k : TypeKey} {a : α}
    {t : List (TypeKey × α)} : alookup ((k, a) :: t) k = some a := by
  simp [alookup]

/-- Resolving a `Shared` entry returns a clone of the stored value and
leaves the container untouched. -/
theorem resolve_shared (w : World) (f : Nat) (st : Container) (k : TypeKey)
    (v : Val) (hc : st.tracked.contains k = false)
    (hl : alookup st.resolvers k = some (.Shared v)) :
    engine w (f + 1) (.resolveR k) st
      = ⟨.ok v none, st, [.trackPush (k :: st.tracked)]⟩ := by
  simp only [engine, hc, Bool.false_eq_true, if_false, hl, getShared]
  simp [List.erase_cons_head]

/-- Resolving a `Factory` entry runs the factory code once and stores the
mutated captured state back into the registry. -/
theorem resolve_factory (w : World) (f : Nat) (st : Container) (k : TypeKey)
    (s0 : Val) (code : Val → Prog) (v s1 : Val) (L : List Ev)
    (hc : st.tracked.contains k = false)
    (hl : alookup st.resolvers k = some (.Factory s0 code))
    (hrun : engine w f (.runP (code s0)) ⟨st.resolvers, k :: st.tracked⟩
        = ⟨.ok v (some s1), ⟨st.resolvers, k :: st.tracked⟩, L⟩) :
    engine w (f + 1) (.resolveR k) st
      = ⟨.ok v none, ⟨updFacState st.resolvers k s1, st.tracked⟩,
          .trackPush (k :: st.tracked) :: .factoryInvoked k :: L⟩ := by
  simp only [engine, hc, Bool.false_eq_true, if_false, hl, hrun]
  simp [List.erase_cons_head]

/-- Resolving a `Builder` entry removes it, runs the one-shot builder,
re-inserts the produced value as `Shared` and returns a clone of it. -/
theorem resolve_builder (w : World) (f : Nat) (st : Container) (k : TypeKey)
    (code : Prog) (v : Val) (L : List Ev)
    (hc : st.tracked.contains k = false)
    (hl : alookup st.resolvers k = some (.Builder code))
    (hgone : alookup (eraseKey st.resolvers k) k = none)
    (hrun : engine w f (.runP code) ⟨eraseKey st.resolvers k, k :: st.tracked⟩
        = ⟨.ok v none, ⟨eraseKey st.resolvers k, k :: st.tracked⟩, L⟩) :
    engine w (f + 1) (.resolveR k) st
      = ⟨.ok v none, ⟨(k, .Shared v) :: eraseKey st.resolvers k, st.tracked⟩,
          .trackPush (k :: st.tracked) :: .builderInvoked k :: L⟩ := by
  simp only [engine, hc, Bool.false_eq_true, if_false, hl, hrun]
  simp [insertReg, hgone, getShared, alookup_cons_self, List.erase_cons_head]

/-- Iterated resolution of a `Shared` entry: every call returns the stored
value and nothing changes. -/
theorem resolveN_shared (w : World) (n f : Nat) (st : Container)
    (k : TypeKey) (v : Val)
    (hc : st.tracked.contains k = false)
    (hl : alookup st.resolvers k = some (.Shared v)) :
    resolveN w n (f + 1) st k
      = (List.replicate n (.ok v none), st,
         List.replicate n (.trackPush (k :: st.tracked))) := by
  induction n with
  | zero => rfl
  | succ n ih =>
    simp [resolveN, resolve_shared w f st k v hc hl, ih, List.replicate_succ]

end KamikazeDi

namespace KamikazeDi

/-- One step of `Injector::inject` on an auto-resolvable key with no
entry yet: the user constructor runs first (with no cycle tracking), its
result is stored as `Shared` (behind `Rc` for `InjectAsRc`), and the call
ends with `self.get()`. -/
theorem inject_new_step (w : World) (f : Nat) (st st2 : Container)
    (k : TypeKey) (impl : InjectImpl) (item : Val) (L : List Ev)
    (hw : alookup w k = some impl)
    (hmiss : alookup st.resolvers k = none)
    (hrun : engine w f (.runP impl.ctor) st = ⟨.ok item none, st2, L⟩)
    (hm2 : alookup st2.resolvers k = none) :
    engine w (f + 1) (.injectR k) st
      = ⟨(engine w f (.resolveR k)
            ⟨(k, .Shared (if impl.asRc then Val.rc item else item))
              :: st2.resolvers, st2.tracked⟩).out,
         (engine w f (.resolveR k)
            ⟨(k, .Shared (if impl.asRc then Val.rc item else item))
              :: st2.resolvers, st2.tracked⟩).st,
         .ctorInvoked k :: L ++
           (engine w f (.resolveR k)
            ⟨(k, .Shared (if impl.asRc then Val.rc item else item))
              :: st2.resolvers, st2.tracked⟩).log⟩ := by
  simp only [engine, hw, hmiss, Option.isSome_none, Bool.false_eq_true,
    if_false, hrun]
  simp [insertReg, hm2]

/-- `inject_new_step` followed by the final `self.get()` on the freshly
inserted `Shared` entry. -/
theorem inject_new (w : World) (f : Nat) (st st2 : Container) (k : TypeKey)
    (impl : InjectImpl) (item : Val) (L : List Ev)
    (hw : alookup w k = some impl)
    (hmiss : alookup st.resolvers k = none)
    (hc : st.tracked.contains k = false)
    (hrun : engine w (f + 1) (.runP impl.ctor) st = ⟨.ok item none, st2, L⟩)
    (hm2 : alookup st2.resolvers k = none) :
    engine w (f + 2) (.injectR k) st
      = ⟨.ok (if impl.asRc then Val.rc item else item) none,
          ⟨(k, .Shared (if impl.asRc then Val.rc item else item)) :: st2.resolvers,
            st2.tracked⟩,
          .ctorInvoked k :: L ++ [.trackPush (k :: st2.tracked)]⟩ := by
  have htr : st2.tracked = st.tracked := by
    have := engine_tracked w (f + 1) (.runP impl.ctor) st
    rw [hrun] at this
    exact this
  have hc2 : st2.tracked.contains k = false := by rw [htr]; exact hc
  rw [show f + 2 = (f + 1) + 1 from rfl,
    inject_new_step w (f + 1) st st2 k impl item L hw hmiss hrun hm2,
    resolve_shared w f _ k _ (by simpa using hc2) alookup_cons_self]

/-- `Injector::inject` on an auto-resolvable key whose entry already
exists: no constructor call, just `self.get()`. -/
theorem inject_present (w : World) (f : Nat) (st : Container) (k : TypeKey)
    (impl : InjectImpl) (v : Val)
    (hw : alookup w k = some impl)
    (hl : alookup st.resolvers k = some (.Shared v))
    (hc : st.tracked.contains k = false) :
    engine w (f + 2) (.injectR k) st
      = ⟨.ok v none, st, [.trackPush (k :: st.tracked)]⟩ := by
  show engine w (f + 1 + 1) (.injectR k) st = _
  simp only [engine, hw, hl, Option.isSome_some, if_true]
  have hc2 : k ∉ st.tracked := by simpa using hc
  simp [hc2, getShared, hl, List.erase_cons_head]

/-- Iterated `inject` after the value is cached as `Shared`. -/
theorem injectN_shared (w : World) (n f : Nat) (st : Container)
    (k : TypeKey) (impl : InjectImpl) (v : Val)
    (hw : alookup w k = some impl)
    (hl : alookup st.resolvers k = some (.Shared v))
    (hc : st.tracked.contains k = false) :
    injectN w n (f + 2) st k
      = (List.replicate n (.ok v none), st,
         List.replicate n (.trackPush (k :: st.tracked))) := by
  induction n with
  | zero => rfl
  | succ n ih =>
    simp [injectN, inject_present w f st k impl v hw hl hc, ih,
      List.replicate_succ]

/-- `Injector::inject` when the constructor fails: the error propagates
(`?`) and nothing is inserted — the container is exactly as the
constructor left it. -/
theorem inject_ctor_err (w : World) (f : Nat) (st st2 : Container)
    (k : TypeKey) (impl : InjectImpl) (e : DiError) (L : List Ev)
    (hw : alookup w k = some impl)
    (hmiss : alookup st.resolvers k = none)
    (hrun : engine w f (.runP impl.ctor) st = ⟨.err e, st2, L⟩) :
    engine w (f + 1) (.injectR k) st = ⟨.err e, st2, .ctorInvoked k :: L⟩ := by
  simp only [engine, hw, hmiss, Option.isSome_none, Bool.false_eq_true,
    if_false, hrun]

/-- Whenever `inject` finds an auto-resolvable key with no entry, the
first thing it logs is a constructor invocation — whatever the
constructor then does. -/
theorem inject_missing_invokes_ctor (w : World) (f : Nat) (st : Container)
    (k : TypeKey) (impl : InjectImpl)
    (hw : alookup w k = some impl)
    (hmiss : alookup st.resolvers k = none) :
    (engine w (f + 1) (.injectR k) st).log.head? = some (.ctorInvoked k) := by
  simp only [engine, hw, hmiss, Option.isSome_none, Bool.false_eq_true,
    if_false]
  split <;> (try split) <;> rfl

end KamikazeDi

namespace KamikazeDi

/-! ## Concrete scenarios from the spec's testable properties -/

/-- Factory registered for `i32` (key 32): resolves `i64` and subtracts 1
(the source's doc-test closure). -/
def facI32 : Val → Prog := fun _ =>
  .resolveD 64 fun r =>
    match r with
    | .ok (.int n) => .ret (.int (n - 1))
    | _ => .abort "unwrap on Err"

/-- Factory registered for `i64` (key 64): resolves `i32` and subtracts 1. -/
def facI64 : Val → Prog := fun _ =>
  .resolveD 32 fun r =>
    match r with
    | .ok (.int n) => .ret (.int (n - 1))
    | _ => .abort "unwrap on Err"

/-- The circular-dependency container: two factories, each resolving the
other's type (spec scenario 3 / the `should_panic` doc-test). -/
def cycleContainer : Container :=
  ⟨[(32, .Factory (.int 0) facI32), (64, .Factory (.int 0) facI64)], []⟩

/-- An `Inject` constructor for key 7 that asks for its own type via
`inject` (`container.inject::<Self>()`). -/
def selfInjCtor : Prog := .injectD 7 fun _ => .ret (.int 0)

/-- World where key 7's `Inject::resolve` injects its own type. -/
def selfInjWorld : World := [(7, ⟨false, selfInjCtor⟩)]

/-- An `Inject` constructor for key 7 that asks for its own type via
`resolve` and field-qualifies the failure, as the derived impls do. -/
def selfResCtor : Prog := .resolveD 7 fun r =>
  match r with
  | .ok v => .ret v
  | .error _ => .errP (.constructionFailure "could not resolve Selfish::dep")

/-- World where key 7's `Inject::resolve` resolves its own type. -/
def selfResWorld : World := [(7, ⟨false, selfResCtor⟩)]

/-- Helper for C2: injecting a type whose `Inject::resolve` injects its
own type recurses without bound — for every fuel budget the model runs
out of fuel, and no cycle is ever reported. -/
theorem injectSelfLoop_outOfFuel (f : Nat) :
    (Container.inject selfInjWorld f ⟨[], []⟩ 7).out = .outOfFuel := by
  induction f using Nat.strong_induction_on with
  | _ f ih =>
    match f with
    | 0 => rfl
    | 1 => rfl
    | g + 2 =>
      have h := ih g (by omega)
      simp only [Container.inject, selfInjWorld, selfInjCtor] at h ⊢
      simp [engine, alookup, h]

/-- **C1, counterexample.**  The claim says resolving either side of a
two-factory cycle returns `CircularDependency` as a recoverable `Err`.
On the concrete cycle container it is a panic (`CycleStopper::track`
aborts), not an `Err` the caller could catch. -/
theorem C1_counterexample :
    (Container.resolve [] 10 cycleContainer 32).out.isRecoverableErr = false ∧
    (Container.resolve [] 10 cycleContainer 32).out
        = .panicked (.circular 32 [64, 32]) :=
  ⟨rfl, rfl⟩

/-- **C1, amended.**  For the two mutually-recursive factories, resolving
either type fails with the `CircularDependency` panic — an unrecoverable
abort, not a catchable `Err` — after a bounded number of steps: the
outcome is the same for every fuel budget of at least 5, so detection
never degenerates into unbounded recursion (no stack overflow), and the
cycle tracker is left clean. -/
theorem C1_cycle_is_panic_not_err (f : Nat) :
    (Container.resolve [] (f + 5) cycleContainer 32).out
        = .panicked (.circular 32 [64, 32]) ∧
    (Container.resolve [] (f + 5) cycleContainer 64).out
        = .panicked (.circular 64 [32, 64]) ∧
    (Container.resolve [] (f + 5) cycleContainer 32).st = cycleContainer ∧
    (Container.resolve [] (f + 5) cycleContainer 64).st = cycleContainer :=
  ⟨rfl, rfl, rfl, rfl⟩

/-- **C2, counterexample.**  The claim says an unregistered `Inject` type
whose constructor requests its own type goes through the same cycle
tracking as registered entries and is reported as a circular dependency.
Concretely: requesting the type via `inject` inside its own constructor
exhausts a 50-deep recursion budget without any cycle report (the real
code overflows the stack), and requesting it via `resolve` yields a
`ConstructionFailure` wrapping `TypeNotRegistered` — neither is the
`CircularDependency` report a registered cycle produces. -/
theorem C2_counterexample :
    (Container.inject selfInjWorld 50 ⟨[], []⟩ 7).out = .outOfFuel ∧
    (Container.inject selfResWorld 50 ⟨[], []⟩ 7).out
        = .err (.constructionFailure "could not resolve Selfish::dep") :=
  ⟨injectSelfLoop_outOfFuel 50, rfl⟩

/-- **C2, amended.**  Auto-resolution does *not* pass through the cycle
tracker: the constructor of an unregistered `Inject` type runs before any
tracking.  A constructor that `inject`s its own type recurses unboundedly
(every fuel budget is exhausted; in Rust, a stack overflow), and one that
`resolve`s its own type gets `TypeNotRegistered` (here field-qualified by
the derived impl), not `CircularDependency`. -/
theorem C2_auto_resolve_skips_cycle_tracking :
    (∀ f, (Container.inject selfInjWorld f ⟨[], []⟩ 7).out = .outOfFuel) ∧
    (∀ f, (Container.inject selfResWorld (f + 3) ⟨[], []⟩ 7).out
        = .err (.constructionFailure "could not resolve Selfish::dep")) :=
  ⟨injectSelfLoop_outOfFuel, fun _ => rfl⟩

end KamikazeDi

namespace KamikazeDi

/-- **C3.**  For every builder state in which `T` is not yet present (i.e.
after any prior registration sequence not containing `T`), the first
registration of `T` — `register`, `register_factory` and
`register_builder` all funnel into `insert`, so `r1`/`r2` range over all
three entry kinds — succeeds, a second registration of `T` fails with
`DuplicateRegistration`, and the entry stored first is still the one
found for `T` afterwards. -/
theorem C3_duplicate_registration_rejected (b : ContainerBuilder)
    (k : TypeKey) (r1 r2 : Resolver) (hfresh : b.has k = false) :
    b.insert k r1 = .ok ⟨(k, r1) :: b.resolvers⟩ ∧
    (ContainerBuilder.mk ((k, r1) :: b.resolvers)).insert k r2
        = .error (.duplicateRegistration k) ∧
    alookup ((k, r1) :: b.resolvers) k = some r1 := by
  refine ⟨?_, ?_, alookup_cons_self⟩
  · simp [ContainerBuilder.insert, hfresh]
  · simp [ContainerBuilder.insert, ContainerBuilder.has, alookup_cons_self]

/-- **C3, witness**: registering `u32 = 42` (key 5) twice — the second
attempt, even with a different value, is rejected and the stored entry is
still 42. -/
theorem C3_witness :
    ContainerBuilder.new.has 5 = false ∧
    (ContainerBuilder.new.insert 5 (.Shared (.int 42))
        = .ok ⟨[(5, .Shared (.int 42))]⟩ ∧
     (ContainerBuilder.mk [(5, .Shared (.int 42))]).insert 5 (.Shared (.int 43))
        = .error (.duplicateRegistration 5) ∧
     alookup ([(5, Resolver.Shared (Val.int 42))] : Registry) 5
        = some (Resolver.Shared (Val.int 42))) :=
  ⟨rfl, C3_duplicate_registration_rejected ContainerBuilder.new 5 _ _ rfl⟩

/-- **C5.**  The cycle tracker's correctness invariant: starting from a
duplicate-free tracked set, every engine operation (resolve, inject, or a
user closure run) keeps the tracked set duplicate-free, and every tracked
set recorded at the moment a key is inserted (`trackPush` events, i.e.
"every moment" the set grows) is duplicate-free — a key already present
is never inserted again; reentry is intercepted by the panic branch
instead. -/
theorem C5_tracked_never_duplicated (w : World) (f : Nat) (req : Req)
    (st : Container) (hnd : st.tracked.Nodup) :
    pushesOk (engine w f req st).log = true ∧
    (engine w f req st).st.tracked.Nodup := by
  refine ⟨engine_pushesOk w f req st hnd, ?_⟩
  rw [engine_tracked]
  exact hnd

/-- **C5, witness**: on the circular two-factory container every tracked
snapshot during the (panicking) resolution is duplicate-free. -/
theorem C5_witness :
    pushesOk (engine [] 10 (.resolveR 32) cycleContainer).log = true ∧
    (engine [] 10 (.resolveR 32) cycleContainer).st.tracked.Nodup :=
  C5_tracked_never_duplicated [] 10 (.resolveR 32) cycleContainer (by decide)

/-- **C6.**  The cycle guard releases on every exit path: whatever the
outcome of `resolve` (success, error, or unwinding panic), the tracked
set after the call is exactly the tracked set before it; in particular a
key not in flight before the call is not in flight after it, so a later,
unrelated `resolve` of the same type does not hit the reentry branch and
is not falsely reported as circular. -/
theorem C6_guard_releases_on_every_exit (w : World) (f : Nat)
    (st : Container) (k : TypeKey) :
    (Container.resolve w f st k).st.tracked = st.tracked ∧
    (st.tracked.contains k = false →
      ((Container.resolve w f st k).st).tracked.contains k = false) := by
  have h := engine_tracked w f (.resolveR k) st
  exact ⟨h, fun hc => by rw [Container.resolve, h]; exact hc⟩

/-- **C6, witness**: after the panicking resolution of the cycle
container, key 64 is no longer tracked and a later resolve of it enters
tracking normally. -/
theorem C6_witness :
    (Container.resolve [] 10 cycleContainer 64).st.tracked = [] ∧
    (Container.resolve [] 10 cycleContainer 64).st.tracked.contains 64
        = false :=
  ⟨(C6_guard_releases_on_every_exit [] 10 cycleContainer 64).1,
   (C6_guard_releases_on_every_exit [] 10 cycleContainer 64).2 rfl⟩

/-- **C7.**  Registering a value and resolving its type returns that very
value: after `register(v)` succeeds (from any prior builder state) and the
container is built, `resolve::<T>()` is `Ok` of a clone of `v`, the
container is unchanged and no constructor ran. -/
theorem C7_register_then_resolve (w : World) (b b1 : ContainerBuilder)
    (k : TypeKey) (v : Val) (f : Nat)
    (hreg : b.register k v = .ok b1) :
    Container.resolve w (f + 1) b1.build k
      = ⟨.ok v none, b1.build, [.trackPush [k]]⟩ := by
  unfold ContainerBuilder.register ContainerBuilder.insert at hreg
  by_cases h : b.has k
  · simp [h] at hreg
  · simp only [h, Bool.false_eq_true, if_false, Except.ok.injEq] at hreg
    subst hreg
    exact resolve_shared w f _ k v rfl alookup_cons_self

/-- **C7, witness**: spec scenario 1 — register `u32 = 42` (key 1), then
`resolve::<u32>()` returns `Ok(42)`. -/
theorem C7_witness :
    ContainerBuilder.new.register 1 (.int 42)
        = .ok ⟨[(1, .Shared (.int 42))]⟩ ∧
    Container.resolve [] 1 (ContainerBuilder.mk [(1, .Shared (.int 42))]).build 1
      = ⟨.ok (.int 42) none, (ContainerBuilder.mk [(1, .Shared (.int 42))]).build,
          [.trackPush [1]]⟩ :=
  ⟨rfl, C7_register_then_resolve [] ContainerBuilder.new _ 1 (.int 42) 0 rfl⟩

end KamikazeDi

namespace KamikazeDi

/-- Updating a factory's captured state keeps the entry registered at the
same key, with the same code and the new state. -/
theorem alookup_updFacState {regs : Registry} {k : TypeKey} {s0 : Val}
    {code : Val → Prog} {s1 : Val}
    (hl : alookup regs k = some (.Factory s0 code)) :
    alookup (updFacState regs k s1) k = some (.Factory s1 code) := by
  induction regs with
  | nil => simp [alookup] at hl
  | cons hd t ih =>
    obtain ⟨k', r⟩ := hd
    by_cases h : k' = k
    · subst h
      simp [alookup] at hl
      simp [updFacState, alookup, hl]
    · simp [alookup, h] at hl
      simp [updFacState, alookup, h, ih hl]

theorem countBuilder_replicate_trackPush (k : TypeKey) (t : List TypeKey)
    (n : Nat) : countBuilder k (List.replicate n (.trackPush t)) = 0 := by
  induction n with
  | zero => rfl
  | succ n ih =>
    simp [countBuilder, List.replicate_succ, List.countP_cons] at ih ⊢

theorem countCtor_replicate_trackPush (k : TypeKey) (t : List TypeKey)
    (n : Nat) : countCtor k (List.replicate n (.trackPush t)) = 0 := by
  induction n with
  | zero => rfl
  | succ n ih =>
    simp [countCtor, List.replicate_succ, List.countP_cons] at ih ⊢

end KamikazeDi

namespace KamikazeDi

/-- Spec scenario 2's factory (the `register_factory` doc-test): captured
counter `i` starts at 0; each call increments it, resolves the shared
`i16 = 43` (key 16) and returns `base - i` — so successive calls yield
42, 41, 40, … -/
def decFactory : Val → Prog := fun s =>
  match s with
  | .int i => .resolveD 16 fun r =>
      match r with
      | .ok (.int b) => .retF (.int (b - (i + 1))) (.int (i + 1))
      | _ => .abort "unwrap on Err"
  | _ => .abort "unexpected captured state"

/-- Container with `i16 = 43` shared at key 16 and the decrementing `i32`
factory at key 32. -/
def factoryContainer : Container :=
  ⟨[(16, .Shared (.int 43)), (32, .Factory (.int 0) decFactory)], []⟩

/-- **C8.**  Each resolution of a `Factory`-registered type invokes the
factory closure anew: the resolution logs a fresh `factoryInvoked` event
on top of whatever the closure logged, returns exactly the closure's
value, and writes the closure's mutated captured state back into the
registry entry (state persists to the next invocation, entry kind
unchanged). -/
theorem C8_factory_runs_every_time_state_persists (w : World)
    (st : Container) (k : TypeKey) (s0 : Val) (code : Val → Prog)
    (v s1 : Val) (L : List Ev) (f : Nat)
    (hc : st.tracked.contains k = false)
    (hl : alookup st.resolvers k = some (.Factory s0 code))
    (hrun : engine w f (.runP (code s0)) ⟨st.resolvers, k :: st.tracked⟩
        = ⟨.ok v (some s1), ⟨st.resolvers, k :: st.tracked⟩, L⟩) :
    Container.resolve w (f + 1) st k
      = ⟨.ok v none, ⟨updFacState st.resolvers k s1, st.tracked⟩,
          .trackPush (k :: st.tracked) :: .factoryInvoked k :: L⟩ ∧
    countFactory k (.trackPush (k :: st.tracked) :: .factoryInvoked k :: L)
        = countFactory k L + 1 ∧
    alookup (updFacState st.resolvers k s1) k = some (.Factory s1 code) := by
  refine ⟨resolve_factory w f st k s0 code v s1 L hc hl hrun, ?_,
    alookup_updFacState hl⟩
  simp [countFactory, List.countP_cons, Nat.add_comm]

/-- **C8, witness**: spec scenario 2 — three successive resolutions of the
decrementing factory yield 42, 41, 40, the factory runs on every one of
the three resolutions, and one resolution concretely returns 42 while
persisting counter state 1. -/
theorem C8_witness :
    (resolveN [] 3 10 factoryContainer 32).1
        = [.ok (.int 42) none, .ok (.int 41) none, .ok (.int 40) none] ∧
    countFactory 32 (resolveN [] 3 10 factoryContainer 32).2.2 = 3 ∧
    (Container.resolve [] 10 factoryContainer 32
      = ⟨.ok (.int 42) none,
          ⟨updFacState factoryContainer.resolvers 32 (.int 1), []⟩,
          [.trackPush [32], .factoryInvoked 32, .trackPush [16, 32]]⟩ ∧
     countFactory 32 [.trackPush [32], .factoryInvoked 32, .trackPush [16, 32]]
        = countFactory 32 [Ev.trackPush [16, 32]] + 1 ∧
     alookup (updFacState factoryContainer.resolvers 32 (.int 1)) 32
        = some (.Factory (.int 1) decFactory)) :=
  ⟨rfl, rfl,
   C8_factory_runs_every_time_state_persists [] factoryContainer 32
     (.int 0) decFactory (.int 42) (.int 1) [.trackPush [16, 32]] 9
     rfl rfl rfl⟩

end KamikazeDi

namespace KamikazeDi

/-- The `register_builder` doc-test's builder for key 32: resolves the
shared `i16 = 43` (key 16) and returns `base - 1 = 42`. -/
def decBuilder : Prog := .resolveD 16 fun r =>
  match r with
  | .ok (.int b) => .ret (.int (b - 1))
  | _ => .abort "unwrap on Err"

/-- Container with `i16 = 43` shared at key 16 and `decBuilder` pending at
key 32. -/
def builderContainer : Container :=
  ⟨[(16, .Shared (.int 43)), (32, .Builder decBuilder)], []⟩

/-- **C4.**  For a type registered with `register_builder` whose one-shot
builder `code` runs cleanly (produces `v`, leaves the container as it
found it, and does not itself resolve its own key), `N = n + 1`
resolutions return `v` every time, the builder is invoked exactly once
over all of them (on the first), and afterwards the entry is the `Shared v`
the one-time `PendingBuilder → Shared` promotion produced — it stays
`Shared` through every later resolution (irreversible). -/
theorem C4_builder_consumed_exactly_once (w : World) (st : Container)
    (k : TypeKey) (code : Prog) (v : Val) (L : List Ev) (n f0 : Nat)
    (hc : st.tracked.contains k = false)
    (hl : alookup st.resolvers k = some (.Builder code))
    (hgone : alookup (eraseKey st.resolvers k) k = none)
    (hnoinv : countBuilder k L = 0)
    (hrun : ∀ g, engine w (g + f0) (.runP code)
        ⟨eraseKey st.resolvers k, k :: st.tracked⟩
        = ⟨.ok v none, ⟨eraseKey st.resolvers k, k :: st.tracked⟩, L⟩) :
    (resolveN w (n + 1) (f0 + 1) st k).1
        = List.replicate (n + 1) (.ok v none) ∧
    countBuilder k (resolveN w (n + 1) (f0 + 1) st k).2.2 = 1 ∧
    alookup (resolveN w (n + 1) (f0 + 1) st k).2.1.resolvers k
        = some (.Shared v) ∧
    (resolveN w (n + 1) (f0 + 1) st k).2.1.tracked = st.tracked := by
  have h0 := hrun 0
  rw [Nat.zero_add] at h0
  have hfirst := resolve_builder w f0 st k code v L hc hl hgone h0
  have hrest := resolveN_shared w n f0
    ⟨(k, .Shared v) :: eraseKey st.resolvers k, st.tracked⟩ k v hc
    alookup_cons_self
  simp only [resolveN, hfirst, hrest]
  refine ⟨by simp [List.replicate_succ], ?_, alookup_cons_self, trivial⟩
  have hrep := countBuilder_replicate_trackPush k (k :: st.tracked) n
  simp only [countBuilder] at hnoinv hrep
  simp [countBuilder, List.countP_cons, List.countP_append, hnoinv, hrep]

/-- **C4, witness**: the `register_builder` doc-test — three resolutions
of the pending builder all yield 42, the builder body runs exactly once,
and the entry ends (and stays) `Shared 42`. -/
theorem C4_witness :
    (resolveN [] 3 3 builderContainer 32).1
        = List.replicate 3 (.ok (.int 42) none) ∧
    countBuilder 32 (resolveN [] 3 3 builderContainer 32).2.2 = 1 ∧
    alookup (resolveN [] 3 3 builderContainer 32).2.1.resolvers 32
        = some (.Shared (.int 42)) ∧
    (resolveN [] 3 3 builderContainer 32).2.1.tracked = [] :=
  C4_builder_consumed_exactly_once [] builderContainer 32 decBuilder
    (.int 42) [.trackPush [16, 32]] 2 2 rfl rfl rfl rfl (fun _ => rfl)

end KamikazeDi

namespace KamikazeDi

/-- The spec's `Point` constructor (scenario 4): an unregistered,
duplicable `Inject` type at key 9 whose derived constructor injects its
`x` field from the registered `i32 = 42` (key 3) and hardcodes `y = 5`. -/
def pointCtor : Prog := .injectD 3 fun r =>
  match r with
  | .ok x => .ret (.pair x (.int 5))
  | .error _ => .errP (.constructionFailure "could not resolve Point::x")

/-- World in which key 9 implements `Inject` via `pointCtor`. -/
def pointWorld : World := [(9, ⟨false, pointCtor⟩)]

/-- Container with only `i32 = 42` registered at key 3. -/
def pointContainer : Container := ⟨[(3, .Shared (.int 42))], []⟩

/-- **C9.**  First `inject` of an unregistered `Inject` type runs its
constructor and caches the result as `Shared`; across `N = n + 1`
injections all results equal the first, the constructor runs exactly once
(`ctorInvoked` appears once in the combined log), and the cached `Shared`
entry is what every later injection clones. -/
theorem C9_auto_resolve_constructs_once (w : World) (st st2 : Container)
    (k : TypeKey) (ctor : Prog) (item : Val) (L : List Ev) (n f : Nat)
    (hw : alookup w k = some ⟨false, ctor⟩)
    (hmiss : alookup st.resolvers k = none)
    (hc : st.tracked.contains k = false)
    (hm2 : alookup st2.resolvers k = none)
    (hL : countCtor k L = 0)
    (hrun : engine w (f + 1) (.runP ctor) st = ⟨.ok item none, st2, L⟩) :
    (injectN w (n + 1) (f + 2) st k).1
        = List.replicate (n + 1) (.ok item none) ∧
    countCtor k (injectN w (n + 1) (f + 2) st k).2.2 = 1 ∧
    alookup (injectN w (n + 1) (f + 2) st k).2.1.resolvers k
        = some (.Shared item) := by
  have htr : st2.tracked = st.tracked := by
    have := engine_tracked w (f + 1) (.runP ctor) st
    rw [hrun] at this
    exact this
  have hfirst := inject_new w f st st2 k ⟨false, ctor⟩ item L hw hmiss hc
    hrun hm2
  simp only [Bool.false_eq_true, if_false] at hfirst
  have hrest := injectN_shared w n f
    ⟨(k, .Shared item) :: st2.resolvers, st2.tracked⟩ k ⟨false, ctor⟩ item hw
    alookup_cons_self (by rw [htr]; exact hc)
  simp only [injectN, hfirst, hrest]
  refine ⟨by simp [List.replicate_succ], ?_, alookup_cons_self⟩
  have hrep := countCtor_replicate_trackPush k (k :: st2.tracked) n
  simp only [countCtor] at hL hrep
  simp [countCtor, List.countP_cons, List.countP_append, hL, hrep]

/-- **C9, witness**: spec scenario 4 — two injections of the unregistered
`Point` both yield `Point { x: 42, y: 5 }`, with the constructor invoked
exactly once and the result cached as `Shared`. -/
theorem C9_witness :
    (injectN pointWorld 2 4 pointContainer 9).1
        = List.replicate 2 (.ok (.pair (.int 42) (.int 5)) none) ∧
    countCtor 9 (injectN pointWorld 2 4 pointContainer 9).2.2 = 1 ∧
    alookup (injectN pointWorld 2 4 pointContainer 9).2.1.resolvers 9
        = some (.Shared (.pair (.int 42) (.int 5))) :=
  C9_auto_resolve_constructs_once pointWorld pointContainer pointContainer 9
    pointCtor (.pair (.int 42) (.int 5)) [.trackPush [3]] 1 2
    rfl rfl rfl rfl rfl rfl

/-- An `Inject` constructor (key 9) whose dependency (key 3) is not
registered: the field resolution fails and the constructor returns the
field-qualified error. -/
def failCtor : Prog := .injectD 3 fun r =>
  match r with
  | .ok x => .ret (.pair x (.int 5))
  | .error _ => .errP (.constructionFailure "could not resolve Point::x")

/-- World in which key 9 implements `Inject` via `failCtor`. -/
def failWorld : World := [(9, ⟨false, failCtor⟩)]

/-- **C10.**  If the self-describing constructor fails, `inject`
propagates the error and performs no insertion: the container is left
exactly as the constructor left it (in particular, if the constructor did
not cache its own key, there is still no `Shared` entry for it), and a
later `inject` of the same key starts by running the constructor again
from scratch. -/
theorem C10_ctor_error_caches_nothing (w : World) (st st2 : Container)
    (k : TypeKey) (impl : InjectImpl) (e : DiError) (L : List Ev)
    (f f2 : Nat)
    (hw : alookup w k = some impl)
    (hmiss : alookup st.resolvers k = none)
    (hrun : engine w f (.runP impl.ctor) st = ⟨.err e, st2, L⟩) :
    Container.inject w (f + 1) st k = ⟨.err e, st2, .ctorInvoked k :: L⟩ ∧
    (alookup st2.resolvers k = none →
      (Container.inject w (f2 + 1) st2 k).log.head?
          = some (.ctorInvoked k)) :=
  ⟨inject_ctor_err w f st st2 k impl e L hw hmiss hrun,
   fun hm2 => inject_missing_invokes_ctor w f2 st2 k impl hw hm2⟩

/-- **C10, witness**: injecting key 9 with an empty container fails with
the field-qualified construction error, leaves the registry empty, and a
retry runs the constructor again. -/
theorem C10_witness :
    Container.inject failWorld 4 ⟨[], []⟩ 9
      = ⟨.err (.constructionFailure "could not resolve Point::x"), ⟨[], []⟩,
          [.ctorInvoked 9, .trackPush [3]]⟩ ∧
    (Container.inject failWorld 4 ⟨[], []⟩ 9).log.head?
        = some (.ctorInvoked 9) :=
  ⟨(C10_ctor_error_caches_nothing failWorld ⟨[], []⟩ ⟨[], []⟩ 9
      ⟨false, failCtor⟩ (.constructionFailure "could not resolve Point::x")
      [.trackPush [3]] 3 3 rfl rfl rfl).1,
   (C10_ctor_error_caches_nothing failWorld ⟨[], []⟩ ⟨[], []⟩ 9
      ⟨false, failCtor⟩ (.constructionFailure "could not resolve Point::x")
      [.trackPush [3]] 3 3 rfl rfl rfl).2 rfl⟩

end KamikazeDi
